import Mathlib

/-!
Verification of the article-association core of BlogAutoPilot.

The development shallowly embeds the Python sources under
`src/blog_autopilot/` (`constants.py`, `db.py`, `series.py`,
`embedding.py`, `recommender.py`).  Numeric values (Python floats and
pgvector similarity values) are modelled as exact rationals `ℚ`.  Two
external numeric primitives are kept abstract, as parameters:

* the pgvector cosine-distance operator `<=>` used inside SQL queries
  (parameter `dist`), and
* the libm square root invoked by Python's `** 0.5`
  (parameter `sqrt`).

All claims proved below hold for every instantiation of these
parameters.  Database tables are modelled as in-memory lists of rows;
SQL queries are translated clause by clause into list operations, and
a query that the database layer fails to execute is modelled by the
`Except.error` case of the table argument.
-/

namespace BlogAutoPilot

/-! ## Constants (src/blog_autopilot/constants.py) -/

/-- constants.py: `TAG_MATCH_THRESHOLD = 2`. -/
def TAG_MATCH_THRESHOLD : Nat := 2

/-- constants.py: `ASSOCIATION_TOP_K = 5`. -/
def ASSOCIATION_TOP_K : Nat := 5

/-- constants.py: `RELATION_STRONG = "强关联"`. -/
def RELATION_STRONG : String := "强关联"

/-- constants.py: `RELATION_MEDIUM = "中关联"`. -/
def RELATION_MEDIUM : String := "中关联"

/-- constants.py: `RELATION_WEAK = "弱关联"`. -/
def RELATION_WEAK : String := "弱关联"

/-- constants.py: `DUPLICATE_SIMILARITY_THRESHOLD = 0.95`. -/
def DUPLICATE_SIMILARITY_THRESHOLD : ℚ := 0.95

/-- constants.py: `RECOMMEND_MIN_ARTICLES = 10`. -/
def RECOMMEND_MIN_ARTICLES : Nat := 10

/-- constants.py: `SERIES_SIMILARITY_THRESHOLD = 0.80`. -/
def SERIES_SIMILARITY_THRESHOLD : ℚ := 0.80

/-- constants.py: `SERIES_TITLE_PATTERN_THRESHOLD = 0.70`. -/
def SERIES_TITLE_PATTERN_THRESHOLD : ℚ := 0.70

/-- constants.py: `SERIES_NEW_THRESHOLD = 0.85`. -/
def SERIES_NEW_THRESHOLD : ℚ := 0.85

/-- constants.py: `SERIES_LOOKBACK_DAYS = 30`. -/
def SERIES_LOOKBACK_DAYS : Nat := 30

/-- constants.py: `EMBEDDING_CACHE_SIZE = 1000`. -/
def EMBEDDING_CACHE_SIZE : Nat := 1000

/-! ## Data model (src/blog_autopilot/models.py and the `articles` schema) -/

/-- models.py: the four-level tag set (dataclass `TagSet`). -/
structure TagSet where
  tag_magazine : String
  tag_science : String
  tag_topic : String
  tag_content : String
deriving DecidableEq, Repr

/-- One row of the `articles` table (db.py `initialize_schema`).
`embedding` is `NOT NULL` in the schema, so it is not optional here;
timestamps are modelled as rationals. -/
structure ArticleRow where
  id : String
  title : String
  tag_magazine : String
  tag_science : String
  tag_topic : String
  tag_content : String
  tg_promo : String
  embedding : List ℚ
  url : Option String
  created_at : ℚ
  series_id : Option String
  series_order : Option Int
  wp_post_id : Option Int
deriving DecidableEq, Repr

/-- models.py: dataclass `ArticleRecord` (as produced by `_row_to_record`). -/
structure ArticleRecord where
  id : String
  title : String
  tags : TagSet
  tg_promo : String
  embedding : Option (List ℚ)
  url : Option String
  created_at : Option ℚ
deriving DecidableEq, Repr

/-- models.py: dataclass `AssociationResult`.  `relation_level` is an
`Option` because the SQL `CASE` in `find_related_articles` has no
`ELSE` arm, so the column can in principle be `NULL`. -/
structure AssociationResult where
  article : ArticleRecord
  tag_match_count : Nat
  relation_level : Option String
  similarity : ℚ
deriving DecidableEq, Repr

/-- db.py `find_related_articles`: the row constructor used for the
result articles (the SELECT list omits `embedding`). -/
def rowToResultRecord (r : ArticleRow) : ArticleRecord :=
  { id := r.id
    title := r.title
    tags := { tag_magazine := r.tag_magazine, tag_science := r.tag_science,
              tag_topic := r.tag_topic, tag_content := r.tag_content }
    tg_promo := r.tg_promo
    embedding := none
    url := r.url
    created_at := some r.created_at }

/-! ## Two-stage related-article query (db.py `find_related_articles`) -/

/-- The `tag_match_count` expression of the SQL CTE: the number of the
four tag levels that exactly equal the query's corresponding level. -/
def tagMatchCount (tags : TagSet) (r : ArticleRow) : Nat :=
  (if r.tag_magazine = tags.tag_magazine then 1 else 0) +
  (if r.tag_science = tags.tag_science then 1 else 0) +
  (if r.tag_topic = tags.tag_topic then 1 else 0) +
  (if r.tag_content = tags.tag_content then 1 else 0)

/-- The SQL `CASE` mapping `tag_match_count` to `relation_level`
(`NULL`, i.e. `none`, when no arm applies). -/
def relationLevelCase (n : Nat) : Option String :=
  if n = 4 then some RELATION_STRONG
  else if n = 3 then some RELATION_MEDIUM
  else if n = 2 then some RELATION_WEAK
  else none

/-- The `WHERE` clause of the CTE: exclude one id and pre-filter to
rows matching the query's `magazine` or `science` tag. -/
def relatedPrefilter (tags : TagSet) (excl : String) (r : ArticleRow) : Prop :=
  r.id ≠ excl ∧ (r.tag_magazine = tags.tag_magazine ∨ r.tag_science = tags.tag_science)

instance (tags : TagSet) (excl : String) (r : ArticleRow) :
    Decidable (relatedPrefilter tags excl r) := by
  unfold relatedPrefilter; infer_instance

/-- db.py `find_related_articles` (lines 406-500): two-stage related
search.  `dist` is the pgvector `<=>` cosine-distance operator; the
`table` argument is `Except.error` when the underlying `fetch_all`
raises, in which case the exception is caught and `[]` returned. -/
def find_related_articles (dist : List ℚ → List ℚ → ℚ)
    (table : Except Unit (List ArticleRow))
    (tags : TagSet) (embedding : List ℚ)
    (exclude_id : Option String) (top_k : Nat) : List AssociationResult :=
  match table with
  | .error _ => []
  | .ok rows =>
    let excl := exclude_id.getD ""
    let candidates := rows.filter (fun r => decide (relatedPrefilter tags excl r))
    let survivors := candidates.filter (fun r => decide (TAG_MATCH_THRESHOLD ≤ tagMatchCount tags r))
    let sorted := survivors.insertionSort
      (fun a b => dist a.embedding embedding ≤ dist b.embedding embedding)
    (sorted.take top_k).map (fun r =>
      { article := rowToResultRecord r
        tag_match_count := tagMatchCount tags r
        relation_level := relationLevelCase (tagMatchCount tags r)
        similarity := 1 - dist r.embedding embedding })

/-! ## Duplicate detection (db.py `find_duplicate`) -/

/-- The result dict of db.py `find_duplicate`
(`SELECT id, title, url, ... AS similarity`). -/
structure DuplicateRow where
  id : String
  title : String
  url : Option String
  similarity : ℚ
deriving DecidableEq, Repr

/-- db.py `find_duplicate` (lines 502-527): nearest neighbour by the
pgvector distance (`ORDER BY embedding <=> q LIMIT 1`), returned when
its similarity `1 - dist` is `≥ threshold`; a storage failure is
caught and degrades to `none`. -/
def find_duplicate (dist : List ℚ → List ℚ → ℚ)
    (table : Except Unit (List ArticleRow))
    (embedding : List ℚ) (threshold : ℚ) : Option DuplicateRow :=
  match table with
  | .error _ => none
  | .ok rows =>
    let sorted := rows.insertionSort
      (fun a b => dist a.embedding embedding ≤ dist b.embedding embedding)
    match sorted.head? with
    | none => none
    | some r =>
      if threshold ≤ 1 - dist r.embedding embedding then
        some { id := r.id, title := r.title, url := r.url,
               similarity := 1 - dist r.embedding embedding }
      else none

/-! ## Theorems: claims C1, C2, C9, C4 -/

/-- Helper: the four-indicator sum is at most 4. -/
theorem tagMatchCount_le_four (tags : TagSet) (r : ArticleRow) :
    tagMatchCount tags r ≤ 4 := by
  unfold tagMatchCount
  split <;> split <;> split <;> split <;> simp

/-- Helper: membership in the result list comes from a surviving row. -/
theorem mem_find_related_articles {dist table tags embedding exclude_id top_k res}
    (h : res ∈ find_related_articles dist table tags embedding exclude_id top_k) :
    ∃ rows r, table = Except.ok rows ∧ r ∈ rows ∧
      relatedPrefilter tags (exclude_id.getD "") r ∧
      TAG_MATCH_THRESHOLD ≤ tagMatchCount tags r ∧
      res = { article := rowToResultRecord r
              tag_match_count := tagMatchCount tags r
              relation_level := relationLevelCase (tagMatchCount tags r)
              similarity := 1 - dist r.embedding embedding } := by
  cases table with
  | error e => simp [find_related_articles] at h
  | ok rows =>
    refine ⟨rows, ?_⟩
    simp only [find_related_articles, List.mem_map] at h
    obtain ⟨r, hr, hres⟩ := h
    have hr' := List.mem_of_mem_take hr
    rw [List.mem_insertionSort] at hr'
    rw [List.mem_filter] at hr'
    obtain ⟨hr1, hr2⟩ := hr'
    rw [List.mem_filter] at hr1
    obtain ⟨hr0, hpre⟩ := hr1
    exact ⟨r, rfl, hr0, of_decide_eq_true hpre, of_decide_eq_true hr2, hres.symm⟩

/-- Claim C1: every result returned by `find_related_articles` has
`tag_match_count` in `{2,3,4}` (0 or 1 never appears), and its
`relation_level` follows the fixed mapping: 4 ↦ `RELATION_STRONG`,
3 ↦ `RELATION_MEDIUM`, 2 ↦ `RELATION_WEAK`. -/
theorem find_related_tag_match_count_and_tier
    (dist : List ℚ → List ℚ → ℚ) (table : Except Unit (List ArticleRow))
    (tags : TagSet) (embedding : List ℚ) (exclude_id : Option String)
    (top_k : Nat) (res : AssociationResult)
    (h : res ∈ find_related_articles dist table tags embedding exclude_id top_k) :
    (res.tag_match_count = 2 ∨ res.tag_match_count = 3 ∨ res.tag_match_count = 4) ∧
    res.relation_level = some
      (if res.tag_match_count = 4 then RELATION_STRONG
       else if res.tag_match_count = 3 then RELATION_MEDIUM
       else RELATION_WEAK) := by
  obtain ⟨rows, r, -, -, -, hge, hres⟩ := mem_find_related_articles h
  have hle : tagMatchCount tags r ≤ 4 := tagMatchCount_le_four tags r
  subst hres
  simp only
  have hge' : 2 ≤ tagMatchCount tags r := hge
  interval_cases h234 : tagMatchCount tags r <;> simp [relationLevelCase]

/-- Claim C2: `find_related_articles` only ever returns documents whose
magazine or science tag exactly equals the query's corresponding tag;
consequently a stored document matching the query on neither of those
two levels (even if it matches `topic`+`content`, i.e. match count 2)
never appears in the result, for any `top_k`. -/
theorem find_related_prefilter_blind_spot
    (dist : List ℚ → List ℚ → ℚ) (table : Except Unit (List ArticleRow))
    (tags : TagSet) (embedding : List ℚ) (exclude_id : Option String)
    (top_k : Nat) (res : AssociationResult)
    (h : res ∈ find_related_articles dist table tags embedding exclude_id top_k) :
    (res.article.tags.tag_magazine = tags.tag_magazine ∨
     res.article.tags.tag_science = tags.tag_science) ∧
    ∀ r : ArticleRow, r.tag_magazine ≠ tags.tag_magazine →
      r.tag_science ≠ tags.tag_science → res.article ≠ rowToResultRecord r := by
  obtain ⟨rows, r, -, -, hpre, -, hres⟩ := mem_find_related_articles h
  subst hres
  refine ⟨hpre.2, ?_⟩
  intro r' hmag hsci hcontra
  have h1 : r.tag_magazine = r'.tag_magazine := congrArg (fun a => a.tags.tag_magazine) hcontra
  have h2 : r.tag_science = r'.tag_science := congrArg (fun a => a.tags.tag_science) hcontra
  rcases hpre.2 with hm | hs
  · exact hmag (h1 ▸ hm)
  · exact hsci (h2 ▸ hs)

/-- Claim C9: if the underlying storage query fails, the failure is
caught and `find_related_articles` returns the empty list instead of
propagating the error. -/
theorem find_related_fail_open
    (dist : List ℚ → List ℚ → ℚ) (table : Except Unit (List ArticleRow))
    (tags : TagSet) (embedding : List ℚ) (exclude_id : Option String)
    (top_k : Nat) (e : Unit) (h : table = Except.error e) :
    find_related_articles dist table tags embedding exclude_id top_k = [] := by
  subst h; rfl

/-- Claim C4: `find_duplicate` returns `none` when the storage query
fails or when the single nearest neighbour's similarity is strictly
below the threshold, and returns that neighbour's
`{id, title, similarity}` when its similarity is `≥ threshold`
(equality counts as a duplicate). -/
theorem find_duplicate_threshold_spec
    (dist : List ℚ → List ℚ → ℚ) (rows : List ArticleRow)
    (embedding : List ℚ) (threshold : ℚ) :
    (∀ e : Unit,
      find_duplicate dist (Except.error e) embedding threshold = none) ∧
    (∀ r : ArticleRow,
      ((rows.insertionSort
        (fun a b => dist a.embedding embedding ≤ dist b.embedding embedding)).head?
          = some r) →
      (1 - dist r.embedding embedding < threshold →
        find_duplicate dist (Except.ok rows) embedding threshold = none) ∧
      (threshold ≤ 1 - dist r.embedding embedding →
        find_duplicate dist (Except.ok rows) embedding threshold =
          some { id := r.id, title := r.title, url := r.url,
                 similarity := 1 - dist r.embedding embedding })) := by
  refine ⟨fun e => rfl, fun r hr => ⟨fun hlt => ?_, fun hge => ?_⟩⟩
  · simp only [find_duplicate, hr]
    rw [if_neg (by exact not_le.mpr hlt)]
  · simp only [find_duplicate, hr]
    rw [if_pos hge]

/-! ### Witnesses for C1, C2, C9, C4 -/

/-- A sample stored row used by the witnesses below. -/
def sampleRow : ArticleRow :=
  { id := "a1", title := "t1",
    tag_magazine := "Tech", tag_science := "AI",
    tag_topic := "NLP", tag_content := "GPT",
    tg_promo := "p", embedding := [1], url := none,
    created_at := 0, series_id := none, series_order := none,
    wp_post_id := none }

/-- The query tag set used by the witnesses below. -/
def sampleTags : TagSet :=
  { tag_magazine := "Tech", tag_science := "AI",
    tag_topic := "NLP", tag_content := "X" }

/-- The single association result produced by the witness query. -/
def sampleResult : AssociationResult :=
  { article := rowToResultRecord sampleRow, tag_match_count := 3,
    relation_level := some RELATION_MEDIUM, similarity := 1 - 0 }

/-- Evaluation of the witness query. -/
theorem sample_query_eval :
    find_related_articles (fun _ _ => 0) (Except.ok [sampleRow])
      sampleTags [1] none 5 = [sampleResult] := rfl

/-- Witness for C1: querying a one-row table whose row shares exactly
the tags `Tech/AI/NLP` yields a result with match count 3 and tier
`RELATION_MEDIUM`. -/
theorem find_related_tag_match_count_and_tier_witness :
    ∃ res ∈ find_related_articles (fun _ _ => 0) (Except.ok [sampleRow])
        sampleTags [1] none 5,
      (res.tag_match_count = 2 ∨ res.tag_match_count = 3 ∨ res.tag_match_count = 4) ∧
      res.relation_level = some
        (if res.tag_match_count = 4 then RELATION_STRONG
         else if res.tag_match_count = 3 then RELATION_MEDIUM
         else RELATION_WEAK) := by
  have hres : sampleResult ∈ find_related_articles (fun _ _ => 0)
      (Except.ok [sampleRow]) sampleTags [1] none 5 := by
    rw [sample_query_eval]; exact List.mem_singleton_self _
  exact ⟨sampleResult, hres,
    find_related_tag_match_count_and_tier (fun _ _ => 0) (Except.ok [sampleRow])
      sampleTags [1] none 5 sampleResult hres⟩

/-- Witness for C2 at the same concrete query. -/
theorem find_related_prefilter_blind_spot_witness :
    ∃ res ∈ find_related_articles (fun _ _ => 0) (Except.ok [sampleRow])
        sampleTags [1] none 5,
      (res.article.tags.tag_magazine = sampleTags.tag_magazine ∨
       res.article.tags.tag_science = sampleTags.tag_science) := by
  have hres : sampleResult ∈ find_related_articles (fun _ _ => 0)
      (Except.ok [sampleRow]) sampleTags [1] none 5 := by
    rw [sample_query_eval]; exact List.mem_singleton_self _
  exact ⟨sampleResult, hres,
    (find_related_prefilter_blind_spot (fun _ _ => 0) (Except.ok [sampleRow])
      sampleTags [1] none 5 sampleResult hres).1⟩

/-- Witness for C9: a concrete failed query returns `[]`. -/
theorem find_related_fail_open_witness :
    find_related_articles (fun _ _ => 0) (Except.error ()) sampleTags [1] none 5
      = [] :=
  find_related_fail_open (fun _ _ => 0) (Except.error ()) sampleTags [1] none 5 () rfl

/-- Witness for C4: on a concrete one-row table, similarity 1 against
threshold 0.95 is reported as a duplicate, threshold 0.95 against a
similarity 0.9 neighbour gives `none`, and a failed query gives
`none`. -/
theorem find_duplicate_threshold_spec_witness :
    (find_duplicate (fun _ _ => 0) (Except.error ()) [1]
        DUPLICATE_SIMILARITY_THRESHOLD = none) ∧
    (find_duplicate (fun _ _ => 0) (Except.ok [sampleRow]) [1]
        DUPLICATE_SIMILARITY_THRESHOLD =
      some { id := "a1", title := "t1", url := none, similarity := 1 }) ∧
    (find_duplicate (fun _ _ => 0.1) (Except.ok [sampleRow]) [1]
        DUPLICATE_SIMILARITY_THRESHOLD = none) := by
  refine ⟨(find_duplicate_threshold_spec (fun _ _ => 0) [sampleRow] [1]
      DUPLICATE_SIMILARITY_THRESHOLD).1 (), ?_, ?_⟩
  · have h := ((find_duplicate_threshold_spec (fun _ _ => 0) [sampleRow] [1]
        DUPLICATE_SIMILARITY_THRESHOLD).2 sampleRow rfl).2
      (by norm_num [DUPLICATE_SIMILARITY_THRESHOLD])
    simpa [sampleRow] using h
  · exact ((find_duplicate_threshold_spec (fun _ _ => 0.1) [sampleRow] [1]
        DUPLICATE_SIMILARITY_THRESHOLD).2 sampleRow rfl).1
      (by norm_num [DUPLICATE_SIMILARITY_THRESHOLD])

/-! ## Topic recommendation precondition (recommender.py `TopicRecommender.recommend`) -/

/-- recommender.py lines 51-57: the precondition stage of `recommend`.
The article count is read from the store; when it is below
`RECOMMEND_MIN_ARTICLES` a `RecommendationError`("文章数不足…") is
raised (the spec calls this error `InsufficientCorpusError`), otherwise
the analysis proceeds.  The stages after the check call the store and
the external AI collaborator and are not needed by any claim. -/
def recommend_precheck (article_count : Nat) : Except String Nat :=
  if article_count < RECOMMEND_MIN_ARTICLES then
    Except.error "文章数不足"
  else
    Except.ok article_count

/-- Claim C7: the content-gap analysis raises the insufficient-corpus
error exactly when the corpus holds fewer than 10 documents; in
particular a corpus of 9 documents raises and a corpus of 10 does not. -/
theorem recommend_precheck_min_articles :
    (∀ n : Nat, n < RECOMMEND_MIN_ARTICLES →
      recommend_precheck n = Except.error "文章数不足") ∧
    (∀ n : Nat, RECOMMEND_MIN_ARTICLES ≤ n →
      recommend_precheck n = Except.ok n) ∧
    recommend_precheck 9 = Except.error "文章数不足" ∧
    recommend_precheck 10 = Except.ok 10 := by
  refine ⟨fun n hn => ?_, fun n hn => ?_, rfl, rfl⟩
  · simp only [recommend_precheck, if_pos hn]
  · simp only [recommend_precheck, if_neg (Nat.not_lt.mpr hn)]

/-- Witness for C7 at the two boundary corpus sizes. -/
theorem recommend_precheck_min_articles_witness :
    recommend_precheck 9 = Except.error "文章数不足" ∧
    recommend_precheck 10 = Except.ok 10 :=
  ⟨recommend_precheck_min_articles.1 9 (by decide),
   recommend_precheck_min_articles.2.1 10 (by decide)⟩

/-! ## Series detection (series.py)

Title pattern detection:
`SERIES_TITLE_PATTERNS` of constants.py holds five regular
expressions; `has_series_title_pattern` runs `re.search` with each.
The regexes are embedded as explicit scanners over the character
list: `searchAny p cs` tries the matcher `p` at every suffix, like
`re.search`.  `\s` and `\d` are modelled by the ASCII/common-unicode
whitespace set and `Char.isDigit`. -/

/-- Whitespace characters recognised by Python's `\s` / `str.strip`
(the common subset appearing in practice, including U+3000). -/
def isPySpace (c : Char) : Bool :=
  c = ' ' || c = '\t' || c = '\n' || c = '\r' ||
  c = '\x0b' || c = '\x0c' || c = ' ' || c = '　'

/-- Model of `re.search`: try the matcher at every start position. -/
def searchAny (p : List Char → Bool) : List Char → Bool
  | [] => p []
  | c :: rest => p (c :: rest) || searchAny p rest

/-- Tail of pattern `[Pp]art\s*\d+`: zero or more whitespace characters
followed by a digit. -/
def matchNumTail : List Char → Bool
  | [] => false
  | c :: rest => if isPySpace c then matchNumTail rest else c.isDigit

/-- Pattern `[Pp]art\s*\d+` anchored at the current position. -/
def matchPartAt : List Char → Bool
  | p :: 'a' :: 'r' :: 't' :: rest => (p = 'P' || p = 'p') && matchNumTail rest
  | _ => false

/-- The character class `[部篇章节]`. -/
def isChapterClass (c : Char) : Bool :=
  c = '部' || c = '篇' || c = '章' || c = '节'

/-- Tail of pattern `第.{1,3}[部篇章节]`: one to three arbitrary
non-newline characters followed by a chapter-class character. -/
def matchDot13Class : List Char → Bool
  | a :: b :: rest =>
    a ≠ '\n' &&
    (isChapterClass b ||
      (b ≠ '\n' &&
        (match rest with
         | c :: rest2 =>
           isChapterClass c ||
             (c ≠ '\n' &&
               (match rest2 with
                | d :: _ => isChapterClass d
                | [] => false))
         | [] => false)))
  | _ => false

/-- Pattern `第.{1,3}[部篇章节]` anchored at the current position. -/
def matchDiAt : List Char → Bool
  | '第' :: rest => matchDot13Class rest
  | _ => false

/-- Pattern `[（(][上中下][）)]` anchored at the current position. -/
def matchParenSZXAt : List Char → Bool
  | o :: m :: c :: _ =>
    (o = '（' || o = '(') && (m = '上' || m = '中' || m = '下') &&
      (c = '）' || c = ')')
  | _ => false

/-- Pattern `系列|连载|[Ss]eries` anchored at the current position. -/
def matchSeriesWordAt : List Char → Bool
  | '系' :: '列' :: _ => true
  | '连' :: '载' :: _ => true
  | s :: 'e' :: 'r' :: 'i' :: 'e' :: 's' :: _ => s = 'S' || s = 's'
  | _ => false

/-- Tail of pattern `[（(]\d+[）)]$` after the first digit: the
remaining digits, a closing parenthesis, then the end of the string
(Python's `$` also matches before one final newline). -/
def afterDigits : List Char → Bool
  | [] => false
  | c :: rest =>
    if c.isDigit then afterDigits rest
    else (c = '）' || c = ')') && (rest = [] || rest = ['\n'])

/-- Pattern `[（(]\d+[）)]$` anchored at the current position. -/
def matchNumParenEndAt : List Char → Bool
  | o :: d :: rest => (o = '（' || o = '(') && d.isDigit && afterDigits rest
  | _ => false

/-- series.py `has_series_title_pattern`: `re.search` of each of the
five `SERIES_TITLE_PATTERNS` against the title. -/
def has_series_title_pattern (title : String) : Bool :=
  searchAny matchPartAt title.data ||
  searchAny matchDiAt title.data ||
  searchAny matchParenSZXAt title.data ||
  searchAny matchSeriesWordAt title.data ||
  searchAny matchNumParenEndAt title.data

/-! ### Similarity (series.py `_cosine_similarity`, `_avg_similarity`) -/

/-- series.py `_cosine_similarity` (lines 41-48).  `math.fsum` is the
exact sum on `ℚ`; the float power `** 0.5` is the abstract `sqrt`
parameter.  Near-zero norms short-circuit to 0; otherwise the quotient
is clamped to `[-1, 1]`. -/
def _cosine_similarity (sqrt : ℚ → ℚ) (a b : List ℚ) : ℚ :=
  if sqrt ((a.map (fun x => x * x)).sum) < 1e-10 ∨
     sqrt ((b.map (fun x => x * x)).sum) < 1e-10 then 0
  else max (-1) (min 1 (((a.zip b).map (fun p => p.1 * p.2)).sum /
    (sqrt ((a.map (fun x => x * x)).sum) * sqrt ((b.map (fun x => x * x)).sum))))

/-- series.py `_avg_similarity` (lines 51-58): average similarity
against the member embeddings, 0 for an empty member list. -/
def _avg_similarity (sqrt : ℚ → ℚ)
    (embedding : List ℚ) (member_embeddings : List (List ℚ)) : ℚ :=
  if member_embeddings = [] then 0
  else ((member_embeddings.map (fun m => _cosine_similarity sqrt embedding m)).sum)
    / member_embeddings.length

/-! ### Store queries used by series detection (db.py) -/

/-- models.py: dataclass `SeriesRecord` / a row of `article_series`. -/
structure SeriesRecord where
  id : String
  title : String
  tag_magazine : String
  tag_science : String
  tag_topic : String
  created_at : ℚ
deriving DecidableEq, Repr

/-- The persistent state seen by series detection: the `articles` and
`article_series` tables. -/
structure DbState where
  articles : List ArticleRow
  series : List SeriesRecord
deriving DecidableEq, Repr

/-- db.py `_row_to_record` on a full `articles` row. -/
def rowToRecord (r : ArticleRow) : ArticleRecord :=
  { id := r.id
    title := r.title
    tags := { tag_magazine := r.tag_magazine, tag_science := r.tag_science,
              tag_topic := r.tag_topic, tag_content := r.tag_content }
    tg_promo := r.tg_promo
    embedding := some r.embedding
    url := r.url
    created_at := some r.created_at }

/-- db.py `detect_series_candidates`: series rows matching the exact
top-3 tags (the query has no ORDER BY; table order is kept). -/
def detect_series_candidates (st : DbState)
    (tag_magazine tag_science tag_topic : String) : List SeriesRecord :=
  st.series.filter (fun s =>
    decide (s.tag_magazine = tag_magazine ∧ s.tag_science = tag_science ∧
      s.tag_topic = tag_topic))

/-- db.py `get_series_articles`: all articles of the series, ordered by
`series_order` ascending. -/
def get_series_articles (st : DbState) (series_id : String) : List ArticleRow :=
  (st.articles.filter (fun r => decide (r.series_id = some series_id))).insertionSort
    (fun a b => a.series_order.getD 0 ≤ b.series_order.getD 0)

/-- db.py `get_series_article_embeddings`: the embeddings of the
series members (the `embedding IS NOT NULL` clause is vacuous because
the schema declares the column `NOT NULL`). -/
def get_series_article_embeddings (st : DbState) (series_id : String) :
    List (List ℚ) :=
  (st.articles.filter (fun r => decide (r.series_id = some series_id))).map
    (fun r => r.embedding)

/-- The result dict of db.py `find_recent_similar_articles`. -/
structure RecentRow where
  id : String
  title : String
  url : Option String
  wp_post_id : Option Int
  series_id : Option String
  created_at : ℚ
  similarity : ℚ
deriving DecidableEq, Repr

/-- db.py `find_recent_similar_articles` (lines 689-723): articles of
the last `lookback_days` days sharing the exact top-3 tags and not yet
in a series, the closest 5 by the pgvector distance, then filtered in
Python to similarity `≥ threshold`.  `now` stands for SQL `NOW()`,
`created_at` timestamps are in days. -/
def find_recent_similar_articles (dist : List ℚ → List ℚ → ℚ) (st : DbState)
    (now : ℚ) (tag_magazine tag_science tag_topic : String)
    (embedding : List ℚ) (lookback_days : Nat) (threshold : ℚ) :
    List RecentRow :=
  let matching := st.articles.filter (fun r =>
    decide (r.tag_magazine = tag_magazine ∧ r.tag_science = tag_science ∧
      r.tag_topic = tag_topic ∧ r.series_id = none ∧
      now - (lookback_days : ℚ) ≤ r.created_at))
  let sorted := matching.insertionSort
    (fun a b => dist a.embedding embedding ≤ dist b.embedding embedding)
  let rows := (sorted.take 5).map (fun r =>
    { id := r.id, title := r.title, url := r.url, wp_post_id := r.wp_post_id,
      series_id := r.series_id, created_at := r.created_at,
      similarity := 1 - dist r.embedding embedding : RecentRow })
  rows.filter (fun r => decide (threshold ≤ r.similarity))

/-- db.py `get_article`: fetch one article by id. -/
def get_article (st : DbState) (article_id : String) : Option ArticleRecord :=
  (st.articles.find? (fun r => decide (r.id = article_id))).map rowToRecord

/-- db.py `create_series`: insert a row into `article_series`
(`created_at` defaults to `NOW()`). -/
def create_series (st : DbState) (now : ℚ) (series_id title
    tag_magazine tag_science tag_topic : String) : DbState :=
  { st with series := st.series ++
      [{ id := series_id, title := title, tag_magazine := tag_magazine,
         tag_science := tag_science, tag_topic := tag_topic,
         created_at := now }] }

/-- db.py `add_to_series`: `UPDATE articles SET series_id, series_order
WHERE id = %s`. -/
def add_to_series (st : DbState) (article_id series_id : String)
    (series_order : Int) : DbState :=
  { st with articles := st.articles.map (fun r =>
      if r.id = article_id then
        { r with series_id := some series_id, series_order := some series_order }
      else r) }

/-! ### The detection state machine (series.py `_detect_series_impl`) -/

/-- models.py: dataclass `SeriesInfo`. -/
structure SeriesInfo where
  series_id : String
  series_title : String
  order : Nat
  total : Nat
  prev_article : Option ArticleRecord
deriving DecidableEq, Repr

/-- series.py lines 143-147: the similarity threshold, relaxed to
`SERIES_TITLE_PATTERN_THRESHOLD` when the title carries a series-style
pattern, else the default `SERIES_SIMILARITY_THRESHOLD`. -/
def detectThreshold (title : String) : ℚ :=
  if has_series_title_pattern title then SERIES_TITLE_PATTERN_THRESHOLD
  else SERIES_SIMILARITY_THRESHOLD

/-- series.py lines 157-175: the first loop over candidate series —
join the first candidate whose average member similarity reaches the
threshold, at position `memberCount + 1`, with the last member as the
previous article. -/
def findJoin (sqrt : ℚ → ℚ) (st : DbState) (embedding : List ℚ)
    (threshold : ℚ) : List SeriesRecord → Option SeriesInfo
  | [] => none
  | series :: rest =>
    let member_embeddings := get_series_article_embeddings st series.id
    let avg_sim := _avg_similarity sqrt embedding member_embeddings
    if threshold ≤ avg_sim then
      let members := get_series_articles st series.id
      let new_order := members.length + 1
      some { series_id := series.id, series_title := series.title,
             order := new_order, total := new_order,
             prev_article := (members.map rowToRecord).getLast? }
    else findJoin sqrt st embedding threshold rest

/-- series.py lines 178-198: the LLM fallback loop — a candidate whose
average similarity lies within 0.1 below the threshold is accepted when
the external language-model judgment (`llm`, the abstracted outcome of
`_llm_series_check`) confirms the series. -/
def findLlmJoin (sqrt : ℚ → ℚ) (llm : String → List String → Bool)
    (st : DbState) (title : String) (embedding : List ℚ)
    (threshold : ℚ) : List SeriesRecord → Option SeriesInfo
  | [] => none
  | series :: rest =>
    let avg_sim := _avg_similarity sqrt embedding
      (get_series_article_embeddings st series.id)
    if threshold - 0.1 ≤ avg_sim then
      let members := get_series_articles st series.id
      if llm title (members.map (fun m => m.title)) then
        let new_order := members.length + 1
        some { series_id := series.id, series_title := series.title,
               order := new_order, total := new_order,
               prev_article := (members.map rowToRecord).getLast? }
      else findLlmJoin sqrt llm st title embedding threshold rest
    else findLlmJoin sqrt llm st title embedding threshold rest

/-- series.py lines 216-222: assign `series_order = 1..K` to the
matched recent articles sorted by creation time. -/
def addAllToSeries (series_id : String) :
    DbState → List (Nat × RecentRow) → DbState
  | st, [] => st
  | st, (idx, r) :: rest =>
    addAllToSeries series_id (add_to_series st r.id series_id idx) rest

/-- Number the sorted matches starting from 1 (`enumerate(_, 1)`). -/
def enumFrom1 (l : List RecentRow) : List (Nat × RecentRow) :=
  (List.range l.length).zip l |>.map (fun p => (p.1 + 1, p.2))

/-- series.py `_detect_series_impl` (lines 136-240).  External pieces
are parameters: `sqrt` (float `** 0.5`), `llm` (the boolean outcome of
`_llm_series_check`), `dist` (the pgvector operator inside
`find_recent_similar_articles`), `now` (SQL `NOW()`), `newSeriesId`
(the fresh `uuid4` prefix) and `aiWriter` (whether an `ai_writer` was
passed).  Returns the decision together with the updated store. -/
def _detect_series_impl (sqrt : ℚ → ℚ) (llm : String → List String → Bool)
    (dist : List ℚ → List ℚ → ℚ) (st : DbState) (now : ℚ)
    (newSeriesId : String) (aiWriter : Bool) (tags : TagSet)
    (embedding : List ℚ) (title : String) : Option SeriesInfo × DbState :=
  let threshold := detectThreshold title
  let candidates := detect_series_candidates st
    tags.tag_magazine tags.tag_science tags.tag_topic
  match findJoin sqrt st embedding threshold candidates with
  | some info => (some info, st)
  | none =>
    match (if candidates ≠ [] ∧ aiWriter then
        findLlmJoin sqrt llm st title embedding threshold candidates
      else none) with
    | some info => (some info, st)
    | none =>
      let similar := find_recent_similar_articles dist st now
        tags.tag_magazine tags.tag_science tags.tag_topic embedding
        SERIES_LOOKBACK_DAYS SERIES_NEW_THRESHOLD
      if hsim : similar = [] then (none, st)
      else
        let series_title := tags.tag_topic ++ "系列"
        let st1 := create_series st now newSeriesId series_title
          tags.tag_magazine tags.tag_science tags.tag_topic
        let similar_sorted := similar.insertionSort
          (fun a b => a.created_at ≤ b.created_at)
        let st2 := addAllToSeries newSeriesId st1 (enumFrom1 similar_sorted)
        let new_order := similar_sorted.length + 1
        let prev_match := similar_sorted.getLast
          (fun h => hsim (List.eq_nil_of_length_eq_zero
            (by rw [← List.length_insertionSort (fun a b => a.created_at ≤ b.created_at) similar]
                exact congrArg List.length h)))
        let prev_article := get_article st2 prev_match.id
        (some { series_id := newSeriesId, series_title := series_title,
                order := new_order, total := new_order,
                prev_article := prev_article }, st2)

/-- series.py `detect_series` (lines 111-133): the wrapper only
converts unexpected exceptions into `SeriesDetectionError`; the pure
embedding has no exceptions, so it coincides with the implementation. -/
def detect_series (sqrt : ℚ → ℚ) (llm : String → List String → Bool)
    (dist : List ℚ → List ℚ → ℚ) (st : DbState) (now : ℚ)
    (newSeriesId : String) (aiWriter : Bool) (tags : TagSet)
    (embedding : List ℚ) (title : String) : Option SeriesInfo × DbState :=
  _detect_series_impl sqrt llm dist st now newSeriesId aiWriter tags embedding title

/-! ## Theorems: claims C8, C3, C10 -/

/-- Helper: the zipped product sum is symmetric. -/
theorem zip_mul_sum_comm : ∀ a b : List ℚ,
    ((a.zip b).map (fun p => p.1 * p.2)).sum =
      ((b.zip a).map (fun p => p.1 * p.2)).sum := by
  intro a
  induction a with
  | nil => intro b; cases b <;> simp
  | cons x xs ih =>
    intro b
    cases b with
    | nil => simp
    | cons y ys => simp [ih ys, mul_comm]

/-- Claim C8: cosine similarity is symmetric, bounded to `[-1, 1]`, and
returns exactly 0 whenever either vector's norm is below the `1e-10`
near-zero guard, for every choice of the square-root primitive. -/
theorem cosine_similarity_props (sqrt : ℚ → ℚ) (a b : List ℚ) :
    _cosine_similarity sqrt a b = _cosine_similarity sqrt b a ∧
    (-1 ≤ _cosine_similarity sqrt a b ∧ _cosine_similarity sqrt a b ≤ 1) ∧
    ((sqrt ((a.map (fun x => x * x)).sum) < 1e-10 ∨
      sqrt ((b.map (fun x => x * x)).sum) < 1e-10) →
      _cosine_similarity sqrt a b = 0) := by
  refine ⟨?_, ⟨?_, ?_⟩, fun h => ?_⟩
  · unfold _cosine_similarity
    by_cases h1 : sqrt ((a.map (fun x => x * x)).sum) < 1e-10 <;>
      by_cases h2 : sqrt ((b.map (fun x => x * x)).sum) < 1e-10
    · rw [if_pos (Or.inl h1), if_pos (Or.inr h1)]
    · rw [if_pos (Or.inl h1), if_pos (Or.inr h1)]
    · rw [if_pos (Or.inr h2), if_pos (Or.inl h2)]
    · rw [if_neg (by tauto), if_neg (by tauto), zip_mul_sum_comm a b,
        mul_comm (sqrt ((a.map (fun x => x * x)).sum))
          (sqrt ((b.map (fun x => x * x)).sum))]
  · unfold _cosine_similarity
    split
    · norm_num
    · exact le_max_left _ _
  · unfold _cosine_similarity
    split
    · norm_num
    · exact max_le (by norm_num) (min_le_left _ _)
  · unfold _cosine_similarity
    rw [if_pos h]

/-- Witness for C8: with the identity as square root, the zero vector
`[0]` against `[1]` hits the near-zero guard and yields similarity 0,
symmetrically. -/
theorem cosine_similarity_props_witness :
    _cosine_similarity id [(0 : ℚ)] [1] = 0 ∧
    _cosine_similarity id [(0 : ℚ)] [1] = _cosine_similarity id [1] [(0 : ℚ)] :=
  ⟨(cosine_similarity_props id [0] [1]).2.2 (Or.inl (by norm_num)),
   (cosine_similarity_props id [0] [1]).1⟩

/-- Helper: the similarity threshold is always at least 0.70. -/
theorem detectThreshold_ge (title : String) :
    (0.70 : ℚ) ≤ detectThreshold title := by
  unfold detectThreshold
  split
  · norm_num [SERIES_TITLE_PATTERN_THRESHOLD]
  · norm_num [SERIES_SIMILARITY_THRESHOLD]

/-- Helper: an average similarity reaching a positive bound forces the
member-embedding list to be non-empty. -/
theorem members_nonempty_of_avg {sqrt : ℚ → ℚ} {emb : List ℚ}
    {mes : List (List ℚ)} {t : ℚ} (ht : 0 < t)
    (h : t ≤ _avg_similarity sqrt emb mes) : mes ≠ [] := by
  intro hnil
  subst hnil
  unfold _avg_similarity at h
  rw [if_pos rfl] at h
  linarith

/-- Helper: the member list and the member-embedding list of a series
have the same length. -/
theorem length_series_articles_eq (st : DbState) (sid : String) :
    (get_series_articles st sid).length =
      (get_series_article_embeddings st sid).length := by
  unfold get_series_articles get_series_article_embeddings
  rw [List.length_insertionSort, List.length_map]

/-- Helper: `findJoin` joins the first candidate clearing the
threshold. -/
theorem findJoin_append (sqrt : ℚ → ℚ) (st : DbState) (emb : List ℚ)
    (t : ℚ) (pre : List SeriesRecord) (s : SeriesRecord)
    (post : List SeriesRecord)
    (hbefore : ∀ s' ∈ pre,
      _avg_similarity sqrt emb (get_series_article_embeddings st s'.id) < t)
    (hclear : t ≤ _avg_similarity sqrt emb (get_series_article_embeddings st s.id)) :
    findJoin sqrt st emb t (pre ++ s :: post) =
      some { series_id := s.id, series_title := s.title,
             order := (get_series_articles st s.id).length + 1,
             total := (get_series_articles st s.id).length + 1,
             prev_article :=
               ((get_series_articles st s.id).map rowToRecord).getLast? } := by
  induction pre with
  | nil =>
    simp only [List.nil_append, findJoin]
    rw [if_pos hclear]
  | cons s' pre' ih =>
    simp only [List.cons_append, findJoin]
    rw [if_neg (not_le.mpr (hbefore s' (List.mem_cons_self s' pre')))]
    exact ih (fun x hx => hbefore x (List.mem_cons_of_mem s' hx))

/-- Helper: the full evaluation of `_detect_series_impl` when some
candidate clears the threshold (the first such is joined and the store
is left unchanged). -/
theorem _detect_series_impl_join (sqrt : ℚ → ℚ)
    (llm : String → List String → Bool) (dist : List ℚ → List ℚ → ℚ)
    (st : DbState) (now : ℚ) (newSeriesId : String) (aiWriter : Bool)
    (tags : TagSet) (emb : List ℚ) (title : String)
    (pre : List SeriesRecord) (s : SeriesRecord) (post : List SeriesRecord)
    (hcand : detect_series_candidates st tags.tag_magazine tags.tag_science
      tags.tag_topic = pre ++ s :: post)
    (hbefore : ∀ s' ∈ pre,
      _avg_similarity sqrt emb (get_series_article_embeddings st s'.id) <
        detectThreshold title)
    (hclear : detectThreshold title ≤
      _avg_similarity sqrt emb (get_series_article_embeddings st s.id)) :
    _detect_series_impl sqrt llm dist st now newSeriesId aiWriter tags emb title =
      (some { series_id := s.id, series_title := s.title,
              order := (get_series_articles st s.id).length + 1,
              total := (get_series_articles st s.id).length + 1,
              prev_article :=
                ((get_series_articles st s.id).map rowToRecord).getLast? }, st) := by
  unfold _detect_series_impl
  rw [hcand]
  simp only [findJoin_append sqrt st emb (detectThreshold title) pre s post
    hbefore hclear]

/-- Claim C3: the similarity threshold used by series detection is the
relaxed 0.70 when the title carries a series-style pattern and the
default 0.80 otherwise, and a candidate series whose members' average
similarity reaches that threshold (the first such, in candidate order)
is joined at `order = memberCount + 1` with the last member as the
previous article. -/
theorem series_threshold_and_join (sqrt : ℚ → ℚ)
    (llm : String → List String → Bool) (dist : List ℚ → List ℚ → ℚ)
    (st : DbState) (now : ℚ) (newSeriesId : String) (aiWriter : Bool)
    (tags : TagSet) (emb : List ℚ) (title : String)
    (pre : List SeriesRecord) (s : SeriesRecord) (post : List SeriesRecord)
    (hcand : detect_series_candidates st tags.tag_magazine tags.tag_science
      tags.tag_topic = pre ++ s :: post)
    (hbefore : ∀ s' ∈ pre,
      _avg_similarity sqrt emb (get_series_article_embeddings st s'.id) <
        detectThreshold title)
    (hclear : detectThreshold title ≤
      _avg_similarity sqrt emb (get_series_article_embeddings st s.id)) :
    (has_series_title_pattern title = true → detectThreshold title = 0.70) ∧
    (has_series_title_pattern title = false → detectThreshold title = 0.80) ∧
    (detect_series sqrt llm dist st now newSeriesId aiWriter tags emb title).1 =
      some { series_id := s.id, series_title := s.title,
             order := (get_series_articles st s.id).length + 1,
             total := (get_series_articles st s.id).length + 1,
             prev_article :=
               ((get_series_articles st s.id).map rowToRecord).getLast? } := by
  refine ⟨fun h => ?_, fun h => ?_, ?_⟩
  · unfold detectThreshold
    rw [if_pos h]
    norm_num [SERIES_TITLE_PATTERN_THRESHOLD]
  · unfold detectThreshold
    rw [if_neg (by simp [h])]
    norm_num [SERIES_SIMILARITY_THRESHOLD]
  · unfold detect_series
    rw [_detect_series_impl_join sqrt llm dist st now newSeriesId aiWriter
      tags emb title pre s post hcand hbefore hclear]

/-- Helper: any join produced by the first candidate loop satisfies
the order/total invariant. -/
theorem findJoin_some_inv (sqrt : ℚ → ℚ) (st : DbState) (emb : List ℚ)
    {t : ℚ} (ht : 0 < t) :
    ∀ (cs : List SeriesRecord) (i : SeriesInfo),
      findJoin sqrt st emb t cs = some i → i.order = i.total ∧ 2 ≤ i.order := by
  intro cs
  induction cs with
  | nil => intro i h; simp [findJoin] at h
  | cons s rest ih =>
    intro i h
    simp only [findJoin] at h
    split at h
    · rename_i hcl
      have hmem : get_series_article_embeddings st s.id ≠ [] :=
        members_nonempty_of_avg ht hcl
      have hlen : 0 < (get_series_articles st s.id).length := by
        rw [length_series_articles_eq]
        exact List.length_pos.mpr hmem
      obtain rfl := (Option.some.injEq _ _).mp h
      exact ⟨rfl, Nat.succ_le_succ hlen⟩
    · exact ih i h

/-- Helper: any join produced by the LLM fallback loop satisfies the
order/total invariant. -/
theorem findLlmJoin_some_inv (sqrt : ℚ → ℚ)
    (llm : String → List String → Bool) (st : DbState) (title : String)
    (emb : List ℚ) {t : ℚ} (ht : 0 < t - 0.1) :
    ∀ (cs : List SeriesRecord) (i : SeriesInfo),
      findLlmJoin sqrt llm st title emb t cs = some i →
        i.order = i.total ∧ 2 ≤ i.order := by
  intro cs
  induction cs with
  | nil => intro i h; simp [findLlmJoin] at h
  | cons s rest ih =>
    intro i h
    simp only [findLlmJoin] at h
    split at h
    · rename_i hcl
      have hmem : get_series_article_embeddings st s.id ≠ [] :=
        members_nonempty_of_avg ht hcl
      have hlen : 0 < (get_series_articles st s.id).length := by
        rw [length_series_articles_eq]
        exact List.length_pos.mpr hmem
      split at h
      · obtain rfl := (Option.some.injEq _ _).mp h
        exact ⟨rfl, Nat.succ_le_succ hlen⟩
      · exact ih i h
    · exact ih i h

/-- Claim C10: every `SeriesInfo` returned by `detect_series` — via a
join of an existing series, the LLM-confirmed join, or creation of a
new series — satisfies `order = total` and `order ≥ 2`: the new
document is always last, the reported size equals its position, and no
decision makes the new document the sole member. -/
theorem detect_series_order_total (sqrt : ℚ → ℚ)
    (llm : String → List String → Bool) (dist : List ℚ → List ℚ → ℚ)
    (st : DbState) (now : ℚ) (newSeriesId : String) (aiWriter : Bool)
    (tags : TagSet) (emb : List ℚ) (title : String) (info : SeriesInfo)
    (st' : DbState)
    (h : detect_series sqrt llm dist st now newSeriesId aiWriter tags emb title
      = (some info, st')) :
    info.order = info.total ∧ 2 ≤ info.order := by
  have htpos : (0 : ℚ) < detectThreshold title :=
    lt_of_lt_of_le (by norm_num) (detectThreshold_ge title)
  have htpos' : (0 : ℚ) < detectThreshold title - 0.1 := by
    have := detectThreshold_ge title
    linarith
  simp only [detect_series, _detect_series_impl] at h
  split at h
  · rename_i i heq
    rw [Prod.mk.injEq] at h
    obtain rfl := Option.some.inj h.1
    exact findJoin_some_inv sqrt st emb htpos _ i heq
  · split at h
    · rename_i i heq
      rw [Prod.mk.injEq] at h
      obtain rfl := Option.some.inj h.1
      split at heq
      · exact findLlmJoin_some_inv sqrt llm st title emb htpos' _ i heq
      · exact absurd heq (by simp)
    · split at h
      · rw [Prod.mk.injEq] at h
        exact absurd h.1 (by simp)
      · rename_i hsim
        rw [Prod.mk.injEq] at h
        obtain rfl := Option.some.inj h.1
        have hlen : 0 < (find_recent_similar_articles dist st now
            tags.tag_magazine tags.tag_science tags.tag_topic emb
            SERIES_LOOKBACK_DAYS SERIES_NEW_THRESHOLD).length :=
          List.length_pos.mpr hsim
        refine ⟨rfl, ?_⟩
        simp only [List.length_insertionSort]
        omega

/-! ### Concrete Scenario-D setup for the series witnesses -/

/-- The single member of the witness series. -/
def memberRowW : ArticleRow :=
  { id := "a1", title := "Deep Learning Part 1",
    tag_magazine := "M", tag_science := "S", tag_topic := "T",
    tag_content := "C", tg_promo := "p", embedding := [1], url := none,
    created_at := 0, series_id := some "s1", series_order := some 1,
    wp_post_id := none }

/-- The witness candidate series. -/
def seriesRowW : SeriesRecord :=
  { id := "s1", title := "DL", tag_magazine := "M", tag_science := "S",
    tag_topic := "T", created_at := 0 }

/-- The witness store: one series with one member article. -/
def dbStateW : DbState := { articles := [memberRowW], series := [seriesRowW] }

/-- The witness query tags (same top-3 levels as the series). -/
def tagsW : TagSet :=
  { tag_magazine := "M", tag_science := "S", tag_topic := "T",
    tag_content := "C" }

/-- In the witness setup the average member similarity (0.72, with a
square-root primitive valuing both norms at 1) clears the relaxed 0.70
threshold selected by the title "Deep Learning Part 2". -/
theorem witness_hclear :
    detectThreshold "Deep Learning Part 2" ≤
      _avg_similarity (fun _ => 1) [0.72]
        (get_series_article_embeddings dbStateW seriesRowW.id) := by
  have hpat : has_series_title_pattern "Deep Learning Part 2" = true := by decide
  rw [show get_series_article_embeddings dbStateW seriesRowW.id = [[1]] from rfl]
  unfold detectThreshold
  rw [if_pos hpat]
  norm_num [_avg_similarity, _cosine_similarity, SERIES_TITLE_PATTERN_THRESHOLD]

/-- Witness for C3 (Scenario D): the title "Deep Learning Part 2"
selects threshold 0.70, and at average similarity 0.72 against the
one-member candidate series the document joins at order 2 with the
member as previous article. -/
theorem series_threshold_and_join_witness :
    detectThreshold "Deep Learning Part 2" = 0.70 ∧
    (detect_series (fun _ => 1) (fun _ _ => false) (fun _ _ => 0) dbStateW 0
        "new" false tagsW [0.72] "Deep Learning Part 2").1 =
      some { series_id := "s1", series_title := "DL", order := 2, total := 2,
             prev_article := some (rowToRecord memberRowW) } := by
  have h := series_threshold_and_join (fun _ => 1) (fun _ _ => false)
    (fun _ _ => 0) dbStateW 0 "new" false tagsW [0.72] "Deep Learning Part 2"
    [] seriesRowW [] rfl (by simp) witness_hclear
  exact ⟨h.1 (by decide), h.2.2⟩

/-- Witness for C10 at the same concrete store: the returned decision
has `order = total = 2`. -/
theorem detect_series_order_total_witness :
    (detect_series (fun _ => 1) (fun _ _ => false) (fun _ _ => 0) dbStateW 0
        "new" false tagsW [0.72] "Deep Learning Part 2") =
      (some { series_id := "s1", series_title := "DL", order := 2, total := 2,
              prev_article := some (rowToRecord memberRowW) }, dbStateW) ∧
    ((2 : Nat) = 2 ∧ 2 ≤ 2) := by
  have hds : detect_series (fun _ => 1) (fun _ _ => false) (fun _ _ => 0)
      dbStateW 0 "new" false tagsW [0.72] "Deep Learning Part 2" =
      (some { series_id := "s1", series_title := "DL", order := 2, total := 2,
              prev_article := some (rowToRecord memberRowW) }, dbStateW) :=
    _detect_series_impl_join (fun _ => 1) (fun _ _ => false) (fun _ _ => 0)
      dbStateW 0 "new" false tagsW [0.72] "Deep Learning Part 2"
      [] seriesRowW [] rfl (by simp) witness_hclear
  exact ⟨hds, detect_series_order_total (fun _ => 1) (fun _ _ => false)
    (fun _ _ => 0) dbStateW 0 "new" false tagsW [0.72] "Deep Learning Part 2"
    _ _ hds⟩

/-! ## Embedding client (embedding.py `EmbeddingClient`)

The mutable pieces of the client are made explicit: the LRU cache
(`OrderedDict`, head = oldest entry) with its hit/miss counters is a
threaded state, the SHA-256 key derivation `_text_hash` is the abstract
parameter `hash`, and the provider is an oracle giving the outcome of
each network call (indexed by the tenacity attempt number for the
single-text path). -/

/-- The `OrderedDict` cache plus the hit/miss counters of
`EmbeddingClient`. -/
structure EmbeddingCacheState where
  cache : List (String × List ℚ)
  hits : Nat
  misses : Nat
deriving DecidableEq, Repr

/-- A freshly constructed client's cache state. -/
def emptyCacheState : EmbeddingCacheState := { cache := [], hits := 0, misses := 0 }

/-- Dictionary lookup in the ordered association list. -/
def odLookup (key : String) (l : List (String × List ℚ)) : Option (List ℚ) :=
  (l.find? (fun p => decide (p.1 = key))).map (fun p => p.2)

/-- Remove a key from the ordered association list. -/
def odErase (key : String) (l : List (String × List ℚ)) : List (String × List ℚ) :=
  l.filter (fun p => decide (p.1 ≠ key))

/-- embedding.py `_cache_get`: on a hit, move the key to the most
recent end and count a hit; on a miss, count a miss. -/
def _cache_get (hash : String → String) (st : EmbeddingCacheState)
    (text : String) : Option (List ℚ) × EmbeddingCacheState :=
  match odLookup (hash text) st.cache with
  | some v =>
    (some v,
     { st with
         cache := odErase (hash text) st.cache ++ [(hash text, v)]
         hits := st.hits + 1 })
  | none => (none, { st with misses := st.misses + 1 })

/-- The `while len > capacity: popitem(last=False)` eviction loop of
`_cache_put`. -/
def evictOldest (cap : Nat) (l : List (String × List ℚ)) :
    List (String × List ℚ) :=
  if h : cap < l.length then evictOldest cap l.tail else l
termination_by l.length
decreasing_by
  simp only [List.length_tail]
  omega

/-- embedding.py `_cache_put`: write the entry, move it to the most
recent end, evict the oldest entries beyond `EMBEDDING_CACHE_SIZE`. -/
def _cache_put (hash : String → String) (st : EmbeddingCacheState)
    (text : String) (emb : List ℚ) : EmbeddingCacheState :=
  { st with
      cache := evictOldest EMBEDDING_CACHE_SIZE
        (odErase (hash text) st.cache ++ [(hash text, emb)]) }

/-- The two exception kinds `get_embedding` can raise: `ValueError`
on blank input, `EmbeddingError` on provider failure. -/
inductive EmbError where
  | valueError (msg : String)
  | embeddingError (msg : String)
deriving DecidableEq, Repr

/-- Python's `not text or not text.strip()`: true exactly when every
character of the text is whitespace. -/
def str_blank (s : String) : Bool := s.data.all isPySpace

/-- One attempt of the body of embedding.py `get_embedding`
(lines 67-103): validate, consult the cache, then call the provider
(`api` is this attempt's outcome) and cache a success. -/
def get_embedding_once (hash : String → String)
    (api : Except String (List ℚ)) (st : EmbeddingCacheState)
    (text : String) : Except EmbError (List ℚ) × EmbeddingCacheState :=
  if str_blank text then
    (Except.error (EmbError.valueError "Embedding 输入文本不能为空"), st)
  else
    match _cache_get hash st text with
    | (some emb, st1) => (Except.ok emb, st1)
    | (none, st1) =>
      match api with
      | Except.ok emb => (Except.ok emb, _cache_put hash st1 text emb)
      | Except.error e => (Except.error (EmbError.embeddingError e), st1)

/-- The tenacity decorator `@retry(stop=stop_after_attempt(3),
reraise=True)`: rerun the step on ANY exception (there is no retry
predicate) while attempts remain, reraising the last error.  Returns
the result, the final state and the number of attempts consumed. -/
def tenacityRetry {σ α ε : Type} (step : Nat → σ → Except ε α × σ) :
    Nat → Nat → σ → Except ε α × σ × Nat
  | 0, attempt, st =>
    match step attempt st with
    | (Except.ok a, st1) => (Except.ok a, st1, attempt)
    | (Except.error e, st1) => (Except.error e, st1, attempt)
  | r + 1, attempt, st =>
    match step attempt st with
    | (Except.ok a, st1) => (Except.ok a, st1, attempt)
    | (Except.error _, st1) => tenacityRetry step r (attempt + 1) st1

/-- embedding.py `get_embedding` as decorated: three attempts in
total (attempt numbers 1..3), with the provider oracle indexed by the
attempt number. -/
def get_embedding (hash : String → String)
    (api : Nat → Except String (List ℚ)) (st : EmbeddingCacheState)
    (text : String) : Except EmbError (List ℚ) × EmbeddingCacheState × Nat :=
  tenacityRetry (fun attempt s => get_embedding_once hash (api attempt) s text)
    2 1 st

/-! ### Batch path (embedding.py `get_embeddings_batch`)

`EMBEDDING_BATCH_SIZE` is imported by embedding.py but missing from
constants.py in the source tree; the chunk size is therefore kept as
the parameter `B` (the claims hold for every positive size). -/

/-- The first loop of `get_embeddings_batch` (lines 123-131): skip
blank texts, fill cache hits, collect the rest as `(index, text)`
pairs. -/
def collectUncached (hash : String → String) :
    Nat → List String → List (List ℚ) → List (Nat × String) →
    EmbeddingCacheState →
    List (List ℚ) × List (Nat × String) × EmbeddingCacheState
  | _, [], results, uncached, st => (results, uncached, st)
  | i, t :: rest, results, uncached, st =>
    if str_blank t then collectUncached hash (i + 1) rest results uncached st
    else
      match _cache_get hash st t with
      | (some v, st1) =>
        collectUncached hash (i + 1) rest (results.set i v) uncached st1
      | (none, st1) =>
        collectUncached hash (i + 1) rest results (uncached ++ [(i, t)]) st1

/-- The batch slicing `uncached[start:end]` with `end - start =
EMBEDDING_BATCH_SIZE` (lines 140-147). -/
def chunksOf {α : Type} (B : Nat) : List α → List (List α)
  | [] => []
  | x :: xs =>
    if h : B = 0 then []
    else (x :: xs).take B :: chunksOf B ((x :: xs).drop B)
termination_by l => l.length
decreasing_by
  rw [List.length_drop]
  have h1 : 0 < B := Nat.pos_of_ne_zero h
  simp only [List.length_cons]
  omega

/-- The success branch of a batch call (lines 155-159): write each
returned embedding at its original index and cache it. -/
def applyResp (hash : String → String) :
    List ((Nat × String) × List ℚ) → List (List ℚ) → EmbeddingCacheState →
    List (List ℚ) × EmbeddingCacheState
  | [], results, st => (results, st)
  | ((i, t), emb) :: rest, results, st =>
    applyResp hash rest (results.set i emb) (_cache_put hash st t emb)

/-- The failure branch of a batch call (lines 170-175): retry each
item through `get_embedding`; an item that still fails keeps its empty
placeholder. -/
def retryItems (hash : String → String)
    (apiSingle : String → Nat → Except String (List ℚ)) :
    List (Nat × String) → List (List ℚ) → EmbeddingCacheState →
    List (List ℚ) × EmbeddingCacheState
  | [], results, st => (results, st)
  | (i, t) :: rest, results, st =>
    match get_embedding hash (apiSingle t) st t with
    | (Except.ok v, st1, _) => retryItems hash apiSingle rest (results.set i v) st1
    | (Except.error _, st1, _) => retryItems hash apiSingle rest results st1

/-- The per-chunk loop of `get_embeddings_batch` (lines 143-179).  The
response list is aligned with the chunk by position (`zip`), matching
the provider contract of one embedding per input. -/
def processBatches (hash : String → String)
    (apiBatch : List String → Except String (List (List ℚ)))
    (apiSingle : String → Nat → Except String (List ℚ)) :
    List (List (Nat × String)) → List (List ℚ) → EmbeddingCacheState →
    List (List ℚ) × EmbeddingCacheState
  | [], results, st => (results, st)
  | chunk :: rest, results, st =>
    match apiBatch (chunk.map Prod.snd) with
    | Except.ok resp =>
      let p := applyResp hash (chunk.zip resp) results st
      processBatches hash apiBatch apiSingle rest p.1 p.2
    | Except.error _ =>
      let p := retryItems hash apiSingle chunk results st
      processBatches hash apiBatch apiSingle rest p.1 p.2

/-- embedding.py `get_embeddings_batch` (lines 105-187): results start
as empty placeholders, cache hits are filled in place, the uncached
texts are fetched in chunks, failing chunks degrade to per-item retry,
and items that still fail keep the empty-vector sentinel. -/
def get_embeddings_batch (hash : String → String) (B : Nat)
    (apiBatch : List String → Except String (List (List ℚ)))
    (apiSingle : String → Nat → Except String (List ℚ))
    (st : EmbeddingCacheState) (texts : List String) :
    List (List ℚ) × EmbeddingCacheState :=
  if texts = [] then ([], st)
  else
    match collectUncached hash 0 texts (texts.map (fun _ => [])) [] st with
    | (results1, uncached, st1) =>
      if uncached = [] then (results1, st1)
      else processBatches hash apiBatch apiSingle (chunksOf B uncached) results1 st1

/-! ## Theorems: claims C6, C5 -/

/-- Counterexample to claim C6 as stated: on the empty text the
validation `ValueError` is surfaced to the caller, but — because the
tenacity decorator carries no retry predicate — the call still runs
through all 3 attempts before reraising; the claim's "without being
retried" would mean exactly 1 attempt. -/
theorem get_embedding_blank_is_retried :
    (get_embedding id (fun _ => Except.error "api down") emptyCacheState "").1 =
      Except.error (EmbError.valueError "Embedding 输入文本不能为空") ∧
    (get_embedding id (fun _ => Except.error "api down") emptyCacheState "").2.2
      = 3 ∧
    (3 : Nat) ≠ 1 :=
  ⟨rfl, rfl, by decide⟩

/-- Claim C6 (amended): `get_embedding` on blank text fails with the
validation error and surfaces it to the caller, but the failure also
consumes the full 3-attempt retry budget (the decorator has no retry
predicate); a consistently failing provider likewise consumes 3
attempts before surfacing `EmbeddingError`, while a first-attempt
success uses a single attempt. -/
theorem get_embedding_retry_spec (hash : String → String)
    (api : Nat → Except String (List ℚ)) (st : EmbeddingCacheState)
    (text : String) (msg : String) (emb : List ℚ) :
    (str_blank text = true →
      get_embedding hash api st text =
        (Except.error (EmbError.valueError "Embedding 输入文本不能为空"), st, 3)) ∧
    (str_blank text = false → odLookup (hash text) st.cache = none →
      (∀ k, api k = Except.error msg) →
      (get_embedding hash api st text).1 =
          Except.error (EmbError.embeddingError msg) ∧
        (get_embedding hash api st text).2.2 = 3) ∧
    (str_blank text = false → odLookup (hash text) st.cache = none →
      api 1 = Except.ok emb →
      (get_embedding hash api st text).1 = Except.ok emb ∧
        (get_embedding hash api st text).2.2 = 1) := by
  refine ⟨fun hblank => ?_, fun hblank hmiss hapi => ?_, fun hblank hmiss hok => ?_⟩
  · simp [get_embedding, tenacityRetry, get_embedding_once, hblank]
  · constructor <;>
      simp [get_embedding, tenacityRetry, get_embedding_once, _cache_get,
        hblank, hmiss, hapi]
  · constructor <;>
      simp [get_embedding, tenacityRetry, get_embedding_once, _cache_get,
        hblank, hmiss, hok]

/-- Witness for the amended C6 at concrete inputs: a whitespace-only
text, an always-failing provider, and a first-attempt success. -/
theorem get_embedding_retry_spec_witness :
    (get_embedding id (fun _ => Except.error "boom") emptyCacheState "  " =
      (Except.error (EmbError.valueError "Embedding 输入文本不能为空"),
        emptyCacheState, 3)) ∧
    ((get_embedding id (fun _ => Except.error "boom") emptyCacheState "x").1 =
      Except.error (EmbError.embeddingError "boom")) ∧
    ((get_embedding id (fun _ => Except.ok [1]) emptyCacheState "x").2.2 = 1) :=
  ⟨(get_embedding_retry_spec id (fun _ => Except.error "boom") emptyCacheState
      "  " "boom" []).1 (by decide),
   ((get_embedding_retry_spec id (fun _ => Except.error "boom") emptyCacheState
      "x" "boom" []).2.1 (by decide) rfl (fun _ => rfl)).1,
   ((get_embedding_retry_spec id (fun _ => Except.ok [1]) emptyCacheState
      "x" "boom" [1]).2.2 (by decide) rfl rfl).2⟩

/-! ### Infrastructure for the batch-path proofs -/

/-- Helper: setting a different index leaves a `getD` unchanged. -/
theorem getD_set_ne {α : Type} (l : List α) (i j : Nat) (a d : α)
    (h : i ≠ j) : (l.set i a).getD j d = l.getD j d := by
  rw [List.getD_eq_getElem?_getD, List.getD_eq_getElem?_getD,
    List.getElem?_set_ne h]

/-- Helper: setting an in-range index is read back by `getD`. -/
theorem getD_set_self {α : Type} (l : List α) (j : Nat) (a d : α)
    (h : j < l.length) : (l.set j a).getD j d = a := by
  rw [List.getD_eq_getElem?_getD, List.getElem?_set_eq_of_lt a h]
  rfl

/-- Helper: the all-placeholder result list reads `[]` everywhere. -/
theorem getD_map_nil (l : List String) (j : Nat) :
    (l.map (fun _ => ([] : List ℚ))).getD j [] = [] := by
  induction l generalizing j with
  | nil => rfl
  | cons t rest ih =>
    cases j with
    | zero => rfl
    | succ k => simpa [List.getD] using ih k

/-- The cumulative effect of the success branches of the batch loop:
set each collected index to the provider image of its text. -/
def setPairs (f : String → List ℚ) :
    List (Nat × String) → List (List ℚ) → List (List ℚ)
  | [], r => r
  | (i, t) :: rest, r => setPairs f rest (r.set i (f t))

theorem setPairs_append (f : String → List ℚ) :
    ∀ (l1 l2 : List (Nat × String)) (r : List (List ℚ)),
      setPairs f (l1 ++ l2) r = setPairs f l2 (setPairs f l1 r) := by
  intro l1
  induction l1 with
  | nil => intro l2 r; rfl
  | cons p rest ih =>
    intro l2 r
    obtain ⟨i, t⟩ := p
    simp only [List.cons_append, setPairs]
    exact ih l2 (r.set i (f t))

theorem length_setPairs (f : String → List ℚ) :
    ∀ (l : List (Nat × String)) (r : List (List ℚ)),
      (setPairs f l r).length = r.length := by
  intro l
  induction l with
  | nil => intro r; rfl
  | cons p rest ih =>
    intro r
    obtain ⟨i, t⟩ := p
    simp only [setPairs]
    rw [ih, List.length_set]

theorem setPairs_get_ne (f : String → List ℚ) :
    ∀ (pairs : List (Nat × String)) (r : List (List ℚ)) (j : Nat),
      (∀ p ∈ pairs, p.1 ≠ j) →
      (setPairs f pairs r).getD j [] = r.getD j [] := by
  intro pairs
  induction pairs with
  | nil => intro r j _; rfl
  | cons p rest ih =>
    intro r j hne
    obtain ⟨i, t⟩ := p
    simp only [setPairs]
    rw [ih (r.set i (f t)) j (fun q hq => hne q (List.mem_cons_of_mem _ hq)),
      getD_set_ne r i j (f t) [] (hne (i, t) (List.mem_cons_self _ _))]

theorem setPairs_get (f : String → List ℚ) :
    ∀ (pairs : List (Nat × String)) (r : List (List ℚ)) (j : Nat) (t : String),
      j < r.length → (j, t) ∈ pairs →
      (∀ p ∈ pairs, p.1 = j → p.2 = t) →
      (setPairs f pairs r).getD j [] = f t := by
  intro pairs
  induction pairs with
  | nil => intro r j t _ hmem; exact absurd hmem (List.not_mem_nil _)
  | cons p rest ih =>
    intro r j t hj hmem hval
    obtain ⟨i, s⟩ := p
    by_cases hij : i = j
    · subst hij
      have hst : s = t := hval (i, s) (List.mem_cons_self _ _) rfl
      subst hst
      simp only [setPairs]
      by_cases hrest : ∃ q ∈ rest, q.1 = i
      · obtain ⟨q, hq, hq1⟩ := hrest
        have hq2 : q.2 = s := hval q (List.mem_cons_of_mem _ hq) hq1
        have hqeq : q = (i, s) := by
          obtain ⟨q1, q2⟩ := q
          simp only at hq1 hq2
          rw [hq1, hq2]
        exact ih (r.set i (f s)) i s (by rw [List.length_set]; exact hj)
          (hqeq ▸ hq) (fun q' hq' => hval q' (List.mem_cons_of_mem _ hq'))
      · push_neg at hrest
        rw [setPairs_get_ne f rest (r.set i (f s)) i hrest,
          getD_set_self r i (f s) [] hj]
    · have hmem' : (j, t) ∈ rest := by
        rcases List.mem_cons.mp hmem with heq | h
        · exact absurd (congrArg Prod.fst heq).symm hij
        · exact h
      simp only [setPairs]
      exact ih (r.set i (f s)) j t (by rw [List.length_set]; exact hj) hmem'
        (fun q hq => hval q (List.mem_cons_of_mem _ hq))

/-! ### Length preservation through the batch phases -/

theorem length_collectUncached (hash : String → String) :
    ∀ (ts : List String) (i : Nat) (results : List (List ℚ))
      (uncached : List (Nat × String)) (st : EmbeddingCacheState),
      (collectUncached hash i ts results uncached st).1.length =
        results.length := by
  intro ts
  induction ts with
  | nil => intros; rfl
  | cons t rest ih =>
    intro i results uncached st
    simp only [collectUncached]
    split
    · exact ih (i + 1) results uncached st
    · split
      · rename_i v st1 heq
        rw [ih (i + 1) (results.set i v) uncached st1, List.length_set]
      · rename_i st1 heq
        exact ih (i + 1) results (uncached ++ [(i, t)]) st1

theorem length_applyResp (hash : String → String) :
    ∀ (pairs : List ((Nat × String) × List ℚ)) (results : List (List ℚ))
      (st : EmbeddingCacheState),
      (applyResp hash pairs results st).1.length = results.length := by
  intro pairs
  induction pairs with
  | nil => intros; rfl
  | cons p rest ih =>
    intro results st
    obtain ⟨⟨i, t⟩, emb⟩ := p
    simp only [applyResp]
    rw [ih (results.set i emb) (_cache_put hash st t emb), List.length_set]

theorem length_retryItems (hash : String → String)
    (apiSingle : String → Nat → Except String (List ℚ)) :
    ∀ (pairs : List (Nat × String)) (results : List (List ℚ))
      (st : EmbeddingCacheState),
      (retryItems hash apiSingle pairs results st).1.length =
        results.length := by
  intro pairs
  induction pairs with
  | nil => intros; rfl
  | cons p rest ih =>
    intro results st
    obtain ⟨i, t⟩ := p
    simp only [retryItems]
    split
    · rename_i v st1 a heq
      rw [ih (results.set i v) st1, List.length_set]
    · rename_i e st1 a heq
      exact ih results st1

theorem length_processBatches (hash : String → String)
    (apiBatch : List String → Except String (List (List ℚ)))
    (apiSingle : String → Nat → Except String (List ℚ)) :
    ∀ (chunks : List (List (Nat × String))) (results : List (List ℚ))
      (st : EmbeddingCacheState),
      (processBatches hash apiBatch apiSingle chunks results st).1.length =
        results.length := by
  intro chunks
  induction chunks with
  | nil => intros; rfl
  | cons c rest ih =>
    intro results st
    simp only [processBatches]
    split
    · rename_i resp heq
      rw [ih _ _, length_applyResp]
    · rename_i e heq
      rw [ih _ _, length_retryItems]

/-! ### Untouched indices through the batch phases -/

theorem applyResp_untouched (hash : String → String) :
    ∀ (pairs : List ((Nat × String) × List ℚ)) (results : List (List ℚ))
      (st : EmbeddingCacheState) (j : Nat),
      (∀ p ∈ pairs, p.1.1 ≠ j) →
      (applyResp hash pairs results st).1.getD j [] = results.getD j [] := by
  intro pairs
  induction pairs with
  | nil => intros; rfl
  | cons p rest ih =>
    intro results st j hne
    obtain ⟨⟨i, t⟩, emb⟩ := p
    simp only [applyResp]
    rw [ih (results.set i emb) (_cache_put hash st t emb) j
        (fun q hq => hne q (List.mem_cons_of_mem _ hq)),
      getD_set_ne results i j emb []
        (hne ((i, t), emb) (List.mem_cons_self _ _))]

theorem retryItems_untouched (hash : String → String)
    (apiSingle : String → Nat → Except String (List ℚ)) :
    ∀ (pairs : List (Nat × String)) (results : List (List ℚ))
      (st : EmbeddingCacheState) (j : Nat),
      (∀ p ∈ pairs, p.1 ≠ j) →
      (retryItems hash apiSingle pairs results st).1.getD j [] =
        results.getD j [] := by
  intro pairs
  induction pairs with
  | nil => intros; rfl
  | cons p rest ih =>
    intro results st j hne
    obtain ⟨i, t⟩ := p
    simp only [retryItems]
    split
    · rename_i v st1 a heq
      rw [ih (results.set i v) st1 j
          (fun q hq => hne q (List.mem_cons_of_mem _ hq)),
        getD_set_ne results i j v [] (hne (i, t) (List.mem_cons_self _ _))]
    · rename_i e st1 a heq
      exact ih results st1 j (fun q hq => hne q (List.mem_cons_of_mem _ hq))

theorem processBatches_untouched (hash : String → String)
    (apiBatch : List String → Except String (List (List ℚ)))
    (apiSingle : String → Nat → Except String (List ℚ)) :
    ∀ (chunks : List (List (Nat × String))) (results : List (List ℚ))
      (st : EmbeddingCacheState) (j : Nat),
      (∀ c ∈ chunks, ∀ p ∈ c, p.1 ≠ j) →
      (processBatches hash apiBatch apiSingle chunks results st).1.getD j [] =
        results.getD j [] := by
  intro chunks
  induction chunks with
  | nil => intros; rfl
  | cons c rest ih =>
    intro results st j hne
    simp only [processBatches]
    split
    · rename_i resp heq
      rw [ih _ _ j (fun c' hc' => hne c' (List.mem_cons_of_mem _ hc')),
        applyResp_untouched hash (c.zip resp) results st j
          (fun p hp => hne c (List.mem_cons_self _ _) p.1 (List.of_mem_zip hp).1)]
    · rename_i e heq
      rw [ih _ _ j (fun c' hc' => hne c' (List.mem_cons_of_mem _ hc')),
        retryItems_untouched hash apiSingle c results st j
          (hne c (List.mem_cons_self _ _))]

/-! ### Characterisation of the collect phase -/

theorem collectUncached_below (hash : String → String) :
    ∀ (ts : List String) (i : Nat) (results : List (List ℚ))
      (uncached : List (Nat × String)) (st : EmbeddingCacheState) (j : Nat),
      j < i →
      (collectUncached hash i ts results uncached st).1.getD j [] =
          results.getD j [] ∧
      (∀ p ∈ (collectUncached hash i ts results uncached st).2.1,
        p ∈ uncached ∨ j < p.1) := by
  intro ts
  induction ts with
  | nil => intro i results uncached st j hj; exact ⟨rfl, fun p hp => Or.inl hp⟩
  | cons t rest ih =>
    intro i results uncached st j hj
    simp only [collectUncached]
    split
    · exact ih (i + 1) results uncached st j (Nat.lt_succ_of_lt hj)
    · split
      · rename_i v st1 heq
        obtain ⟨h1, h2⟩ := ih (i + 1) (results.set i v) uncached st1 j
          (Nat.lt_succ_of_lt hj)
        exact ⟨by rw [h1, getD_set_ne results i j v [] (by omega)], h2⟩
      · rename_i st1 heq
        obtain ⟨h1, h2⟩ := ih (i + 1) results (uncached ++ [(i, t)]) st1 j
          (Nat.lt_succ_of_lt hj)
        refine ⟨h1, fun p hp => ?_⟩
        rcases h2 p hp with hin | hgt
        · rcases List.mem_append.mp hin with hin' | hsing
          · exact Or.inl hin'
          · right
            have : p = (i, t) := List.mem_singleton.mp hsing
            subst this
            exact hj
        · exact Or.inr hgt

theorem collectUncached_blank (hash : String → String) :
    ∀ (ts : List String) (i : Nat) (results : List (List ℚ))
      (uncached : List (Nat × String)) (st : EmbeddingCacheState) (j : Nat),
      i ≤ j → j - i < ts.length → str_blank (ts.getD (j - i) "") = true →
      (collectUncached hash i ts results uncached st).1.getD j [] =
          results.getD j [] ∧
      (∀ p ∈ (collectUncached hash i ts results uncached st).2.1,
        p ∈ uncached ∨ p.1 ≠ j) := by
  intro ts
  induction ts with
  | nil =>
    intro i results uncached st j hij hlt _
    simp only [List.length_nil] at hlt
    exact absurd hlt (Nat.not_lt_zero _)
  | cons t rest ih =>
    intro i results uncached st j hij hlt hblank
    by_cases hji : j = i
    · subst hji
      have hbt : str_blank t = true := by
        simpa [Nat.sub_self, List.getD] using hblank
      simp only [collectUncached, if_pos hbt]
      obtain ⟨h1, h2⟩ := collectUncached_below hash rest (j + 1) results uncached
        st j (Nat.lt_succ_self j)
      exact ⟨h1, fun p hp => (h2 p hp).imp id (fun h => by omega)⟩
    · have hij' : i + 1 ≤ j := by omega
      have harith : j - i = (j - (i + 1)) + 1 := by omega
      have hlt' : j - (i + 1) < rest.length := by
        simp only [List.length_cons] at hlt
        omega
      have hblank' : str_blank (rest.getD (j - (i + 1)) "") = true := by
        rw [harith] at hblank
        simpa [List.getD] using hblank
      simp only [collectUncached]
      split
      · exact ih (i + 1) results uncached st j hij' hlt' hblank'
      · split
        · rename_i v st1 heq
          obtain ⟨h1, h2⟩ := ih (i + 1) (results.set i v) uncached st1 j hij'
            hlt' hblank'
          exact ⟨by rw [h1, getD_set_ne results i j v [] (by omega)], h2⟩
        · rename_i st1 heq
          obtain ⟨h1, h2⟩ := ih (i + 1) results (uncached ++ [(i, t)]) st1 j
            hij' hlt' hblank'
          refine ⟨h1, fun p hp => ?_⟩
          rcases h2 p hp with hin | hne
          · rcases List.mem_append.mp hin with hin' | hsing
            · exact Or.inl hin'
            · right
              have : p = (i, t) := List.mem_singleton.mp hsing
              subst this
              simpa using fun hcontra => hji hcontra.symm
          · exact Or.inr hne

/-- The indices and texts the collect phase leaves for the API, as a
pure function (used to characterise the empty-cache run). -/
def nonBlankPairs : Nat → List String → List (Nat × String)
  | _, [] => []
  | i, t :: rest =>
    if str_blank t then nonBlankPairs (i + 1) rest
    else (i, t) :: nonBlankPairs (i + 1) rest

theorem collectUncached_empty_cache (hash : String → String) :
    ∀ (ts : List String) (i : Nat) (results : List (List ℚ))
      (uncached : List (Nat × String)) (st : EmbeddingCacheState),
      st.cache = [] →
      ∃ st1 : EmbeddingCacheState,
        collectUncached hash i ts results uncached st =
          (results, uncached ++ nonBlankPairs i ts, st1) ∧ st1.cache = [] := by
  intro ts
  induction ts with
  | nil =>
    intro i results uncached st hst
    exact ⟨st, by simp [collectUncached, nonBlankPairs], hst⟩
  | cons t rest ih =>
    intro i results uncached st hst
    by_cases hbt : str_blank t = true
    · obtain ⟨st1, heq, hc⟩ := ih (i + 1) results uncached st hst
      exact ⟨st1, by simp [collectUncached, nonBlankPairs, hbt, heq], hc⟩
    · have hmiss : _cache_get hash st t =
          (none, { st with misses := st.misses + 1 }) := by
        simp [_cache_get, odLookup, hst]
      obtain ⟨st1, heq, hc⟩ := ih (i + 1) results (uncached ++ [(i, t)])
        { st with misses := st.misses + 1 } (by simpa using hst)
      refine ⟨st1, ?_, hc⟩
      simp only [collectUncached, nonBlankPairs]
      rw [if_neg hbt, if_neg hbt]
      simp only [hmiss]
      rw [heq, List.append_assoc, List.singleton_append]

theorem nonBlankPairs_sound :
    ∀ (ts : List String) (i : Nat) (p : Nat × String),
      p ∈ nonBlankPairs i ts →
      i ≤ p.1 ∧ p.1 - i < ts.length ∧ ts.getD (p.1 - i) "" = p.2 ∧
        str_blank p.2 = false := by
  intro ts
  induction ts with
  | nil => intro i p hp; simp [nonBlankPairs] at hp
  | cons t rest ih =>
    intro i p hp
    simp only [nonBlankPairs] at hp
    split at hp
    · obtain ⟨h1, h2, h3, h4⟩ := ih (i + 1) p hp
      refine ⟨by omega, by simp only [List.length_cons]; omega, ?_, h4⟩
      have harith : p.1 - i = (p.1 - (i + 1)) + 1 := by omega
      rw [harith]
      simpa [List.getD] using h3
    · rename_i hbt
      rcases List.mem_cons.mp hp with rfl | hp'
      · exact ⟨Nat.le_refl i, by simp [Nat.sub_self],
          by simp [Nat.sub_self, List.getD], by simpa using hbt⟩
      · obtain ⟨h1, h2, h3, h4⟩ := ih (i + 1) p hp'
        refine ⟨by omega, by simp only [List.length_cons]; omega, ?_, h4⟩
        have harith : p.1 - i = (p.1 - (i + 1)) + 1 := by omega
        rw [harith]
        simpa [List.getD] using h3

theorem nonBlankPairs_complete :
    ∀ (ts : List String) (i j : Nat), j < ts.length →
      str_blank (ts.getD j "") = false →
      (i + j, ts.getD j "") ∈ nonBlankPairs i ts := by
  intro ts
  induction ts with
  | nil =>
    intro i j hj _
    simp only [List.length_nil] at hj
    exact absurd hj (Nat.not_lt_zero _)
  | cons t rest ih =>
    intro i j hj hnb
    cases j with
    | zero =>
      have ht : (t :: rest).getD 0 "" = t := rfl
      rw [ht] at hnb ⊢
      simp only [Nat.add_zero, nonBlankPairs]
      rw [if_neg (by rw [hnb]; exact Bool.false_ne_true)]
      exact List.mem_cons_self (i, t) _
    | succ k =>
      have hgd : (t :: rest).getD (k + 1) "" = rest.getD k "" := by
        simp [List.getD]
      rw [hgd] at hnb ⊢
      have hmem := ih (i + 1) k (by simpa using Nat.lt_of_succ_lt_succ hj) hnb
      have harith : i + (k + 1) = (i + 1) + k := by omega
      rw [harith]
      simp only [nonBlankPairs]
      split
      · exact hmem
      · exact List.mem_cons_of_mem _ hmem

/-! ### The chunked loop as a fold -/

theorem mem_of_mem_chunksOf {α : Type} (B : Nat) :
    ∀ (n : Nat) (l : List α), l.length ≤ n →
      ∀ c ∈ chunksOf B l, ∀ p ∈ c, p ∈ l := by
  intro n
  induction n with
  | zero =>
    intro l hl c hc
    have : l = [] := List.eq_nil_of_length_eq_zero (Nat.le_zero.mp hl)
    subst this
    simp [chunksOf] at hc
  | succ n ih =>
    intro l hl c hc p hp
    match l with
    | [] => simp [chunksOf] at hc
    | x :: xs =>
      rw [chunksOf] at hc
      by_cases hB : B = 0
      · rw [dif_pos hB] at hc
        exact absurd hc (List.not_mem_nil c)
      · rw [dif_neg hB] at hc
        rcases List.mem_cons.mp hc with rfl | hc2
        · exact List.mem_of_mem_take hp
        · have hdrop : ((x :: xs).drop B).length ≤ n := by
            rw [List.length_drop]
            simp only [List.length_cons] at hl ⊢
            omega
          exact List.mem_of_mem_drop (ih ((x :: xs).drop B) hdrop c hc2 p hp)

theorem foldl_setPairs_chunksOf (f : String → List ℚ) (B : Nat)
    (hB : B ≠ 0) :
    ∀ (n : Nat) (l : List (Nat × String)), l.length ≤ n →
      ∀ r : List (List ℚ),
        List.foldl (fun r c => setPairs f c r) r (chunksOf B l) =
          setPairs f l r := by
  intro n
  induction n with
  | zero =>
    intro l hl r
    have : l = [] := List.eq_nil_of_length_eq_zero (Nat.le_zero.mp hl)
    subst this
    simp [chunksOf, setPairs]
  | succ n ih =>
    intro l hl r
    match l with
    | [] => simp [chunksOf, setPairs]
    | x :: xs =>
      rw [chunksOf, dif_neg hB]
      rw [List.foldl_cons]
      have hdrop : ((x :: xs).drop B).length ≤ n := by
        rw [List.length_drop]
        simp only [List.length_cons] at hl ⊢
        have hB1 : 0 < B := Nat.pos_of_ne_zero hB
        omega
      rw [ih ((x :: xs).drop B) hdrop (setPairs f ((x :: xs).take B) r),
        ← setPairs_append, List.take_append_drop]

/-! ### Success path: the provider as a function of the text -/

theorem zip_map_self (f : String → List ℚ) :
    ∀ l : List (Nat × String),
      l.zip ((l.map Prod.snd).map f) = l.map (fun p => (p, f p.2)) := by
  intro l
  induction l with
  | nil => rfl
  | cons p rest ih => simp only [List.map_cons, List.zip_cons_cons, ih]

theorem applyResp_setPairs (hash : String → String) (f : String → List ℚ) :
    ∀ (l : List (Nat × String)) (results : List (List ℚ))
      (st : EmbeddingCacheState),
      (applyResp hash (l.map (fun p => (p, f p.2))) results st).1 =
        setPairs f l results := by
  intro l
  induction l with
  | nil => intros; rfl
  | cons p rest ih =>
    intro results st
    obtain ⟨i, t⟩ := p
    simp only [List.map_cons, applyResp, setPairs]
    exact ih (results.set i (f t)) (_cache_put hash st t (f t))

theorem processBatches_ok (hash : String → String)
    (apiSingle : String → Nat → Except String (List ℚ))
    (f : String → List ℚ) :
    ∀ (chunks : List (List (Nat × String))) (results : List (List ℚ))
      (st : EmbeddingCacheState),
      (processBatches hash (fun ts => Except.ok (ts.map f)) apiSingle chunks
          results st).1 =
        List.foldl (fun r c => setPairs f c r) results chunks := by
  intro chunks
  induction chunks with
  | nil => intros; rfl
  | cons c rest ih =>
    intro results st
    simp only [processBatches, List.foldl_cons]
    rw [zip_map_self f c]
    have happ := applyResp_setPairs hash f c results st
    rw [show (applyResp hash (c.map (fun p => (p, f p.2))) results st) =
        ((applyResp hash (c.map (fun p => (p, f p.2))) results st).1,
         (applyResp hash (c.map (fun p => (p, f p.2))) results st).2) from rfl]
    rw [happ]
    exact ih (setPairs f c results) _

/-! ### Failure path: every provider call fails -/

theorem tenacityRetry_all_error {σ α ε : Type}
    (step : Nat → σ → Except ε α × σ) (P : σ → Prop)
    (hstep : ∀ k s, P s → ∃ e s1, step k s = (Except.error e, s1) ∧ P s1) :
    ∀ (rem att : Nat) (st : σ), P st →
      ∃ e st1 a, tenacityRetry step rem att st = (Except.error e, st1, a) ∧
        P st1 := by
  intro rem
  induction rem with
  | zero =>
    intro att st hP
    obtain ⟨e, s1, heq, hP1⟩ := hstep att st hP
    exact ⟨e, s1, att, by simp only [tenacityRetry, heq], hP1⟩
  | succ r ih =>
    intro att st hP
    obtain ⟨e, s1, heq, hP1⟩ := hstep att st hP
    obtain ⟨e', st1, a, heq', hP'⟩ := ih (att + 1) s1 hP1
    exact ⟨e', st1, a, by simp only [tenacityRetry, heq, heq'], hP'⟩

theorem get_embedding_all_error (hash : String → String)
    (api : Nat → Except String (List ℚ)) (m : String)
    (hapi : ∀ k, api k = Except.error m) :
    ∀ (st : EmbeddingCacheState) (t : String), st.cache = [] →
      ∃ e st1 a,
        get_embedding hash api st t = (Except.error e, st1, a) ∧
          st1.cache = [] := by
  intro st t hst
  unfold get_embedding
  refine tenacityRetry_all_error _ (fun s => s.cache = []) ?_ 2 1 st hst
  intro k s hs
  by_cases hb : str_blank t = true
  · exact ⟨EmbError.valueError "Embedding 输入文本不能为空", s,
      by simp only [get_embedding_once, if_pos hb], hs⟩
  · refine ⟨EmbError.embeddingError m, { s with misses := s.misses + 1 }, ?_, by simpa using hs⟩
    simp only [get_embedding_once, if_neg hb, _cache_get, odLookup, hs,
      List.find?_nil, Option.map_none', hapi k]

theorem retryItems_all_fail (hash : String → String)
    (apiSingle : String → Nat → Except String (List ℚ)) (m : String)
    (hapi : ∀ t k, apiSingle t k = Except.error m) :
    ∀ (pairs : List (Nat × String)) (results : List (List ℚ))
      (st : EmbeddingCacheState), st.cache = [] →
      (retryItems hash apiSingle pairs results st).1 = results ∧
        (retryItems hash apiSingle pairs results st).2.cache = [] := by
  intro pairs
  induction pairs with
  | nil => intro results st hst; exact ⟨rfl, hst⟩
  | cons p rest ih =>
    intro results st hst
    obtain ⟨i, t⟩ := p
    obtain ⟨e, st1, a, heq, hc1⟩ :=
      get_embedding_all_error hash (apiSingle t) m (hapi t) st t hst
    simp only [retryItems, heq]
    exact ih results st1 hc1

theorem processBatches_all_fail (hash : String → String)
    (apiBatch : List String → Except String (List (List ℚ)))
    (apiSingle : String → Nat → Except String (List ℚ)) (m1 m2 : String)
    (hapiB : ∀ ts, apiBatch ts = Except.error m1)
    (hapiS : ∀ t k, apiSingle t k = Except.error m2) :
    ∀ (chunks : List (List (Nat × String))) (results : List (List ℚ))
      (st : EmbeddingCacheState), st.cache = [] →
      (processBatches hash apiBatch apiSingle chunks results st).1 =
        results := by
  intro chunks
  induction chunks with
  | nil => intros; rfl
  | cons c rest ih =>
    intro results st hst
    simp only [processBatches, hapiB (c.map Prod.snd)]
    obtain ⟨h1, h2⟩ := retryItems_all_fail hash apiSingle m2 hapiS c results st hst
    rw [show (retryItems hash apiSingle c results st) =
        ((retryItems hash apiSingle c results st).1,
         (retryItems hash apiSingle c results st).2) from rfl]
    rw [h1]
    exact ih results _ h2

/-- Claim C5: `get_embeddings_batch` returns one entry per input text
in the same order: the result has the input's length; a blank text
keeps the empty-vector sentinel at its position; when the provider
behaves as a function `f` on each batch (and the cache starts empty)
position `i` holds exactly the embedding of `texts[i]`; and when every
batch call and every per-item retry fails, every position degrades to
the sentinel instead of raising. -/
theorem get_embeddings_batch_spec (hash : String → String) (B : Nat)
    (apiBatch : List String → Except String (List (List ℚ)))
    (apiSingle : String → Nat → Except String (List ℚ))
    (st : EmbeddingCacheState) (texts : List String) (hB : 1 ≤ B) :
    (get_embeddings_batch hash B apiBatch apiSingle st texts).1.length =
        texts.length ∧
    (∀ j, j < texts.length → str_blank (texts.getD j "") = true →
      (get_embeddings_batch hash B apiBatch apiSingle st texts).1.getD j []
        = []) ∧
    (∀ f : String → List ℚ, apiBatch = (fun ts => Except.ok (ts.map f)) →
      st.cache = [] → ∀ j, j < texts.length →
      str_blank (texts.getD j "") = false →
      (get_embeddings_batch hash B apiBatch apiSingle st texts).1.getD j []
        = f (texts.getD j "")) ∧
    (∀ m1 m2 : String, apiBatch = (fun _ => Except.error m1) →
      apiSingle = (fun _ _ => Except.error m2) → st.cache = [] →
      (get_embeddings_batch hash B apiBatch apiSingle st texts).1 =
        texts.map (fun _ => [])) := by
  refine ⟨?_, ?_, ?_, ?_⟩
  · by_cases htexts : texts = []
    · subst htexts; rfl
    · obtain ⟨r1, u1, s1, hc⟩ : ∃ r u s,
          collectUncached hash 0 texts (texts.map (fun _ => [])) [] st =
            (r, u, s) := ⟨_, _, _, rfl⟩
      have hr1 : r1.length = texts.length := by
        have hlen := length_collectUncached hash texts 0
          (texts.map (fun _ => [])) [] st
        rw [hc] at hlen
        simpa using hlen
      simp only [get_embeddings_batch, if_neg htexts, hc]
      split
      · exact hr1
      · rw [length_processBatches]
        exact hr1
  · intro j hj hblank
    by_cases htexts : texts = []
    · subst htexts
      simp only [List.length_nil] at hj
      exact absurd hj (Nat.not_lt_zero _)
    · obtain ⟨r1, u1, s1, hc⟩ : ∃ r u s,
          collectUncached hash 0 texts (texts.map (fun _ => [])) [] st =
            (r, u, s) := ⟨_, _, _, rfl⟩
      have hbl := collectUncached_blank hash texts 0
        (texts.map (fun _ => [])) [] st j (Nat.zero_le j) hj hblank
      rw [hc] at hbl
      obtain ⟨h1, h2⟩ := hbl
      have hr1j : r1.getD j [] = [] := by rw [h1, getD_map_nil]
      have hu1 : ∀ p ∈ u1, p.1 ≠ j :=
        fun p hp => (h2 p hp).resolve_left (List.not_mem_nil p)
      simp only [get_embeddings_batch, if_neg htexts, hc]
      split
      · exact hr1j
      · rw [processBatches_untouched hash apiBatch apiSingle
          (chunksOf B u1) r1 s1 j
          (fun c hcm p hp =>
            hu1 p (mem_of_mem_chunksOf B u1.length u1 (Nat.le_refl _) c hcm p hp))]
        exact hr1j
  · intro f hapiB hcache j hj hnb
    subst hapiB
    have htexts : texts ≠ [] := by
      intro hnil
      subst hnil
      simp only [List.length_nil] at hj
      exact absurd hj (Nat.not_lt_zero _)
    obtain ⟨st1, hcol, hc1⟩ := collectUncached_empty_cache hash texts 0
      (texts.map (fun _ => [])) [] st hcache
    have hmem := nonBlankPairs_complete texts 0 j hj hnb
    rw [Nat.zero_add] at hmem
    have hnonnil : nonBlankPairs 0 texts ≠ [] := by
      intro hnil
      rw [hnil] at hmem
      exact List.not_mem_nil _ hmem
    simp only [get_embeddings_batch, if_neg htexts, hcol, List.nil_append]
    rw [if_neg hnonnil]
    rw [processBatches_ok hash apiSingle f (chunksOf B (nonBlankPairs 0 texts))
      (texts.map (fun _ => [])) st1]
    rw [foldl_setPairs_chunksOf f B (by omega) (nonBlankPairs 0 texts).length
      (nonBlankPairs 0 texts) (Nat.le_refl _) (texts.map (fun _ => []))]
    refine setPairs_get f (nonBlankPairs 0 texts) (texts.map (fun _ => [])) j
      (texts.getD j "") (by rw [List.length_map]; exact hj) hmem ?_
    intro p hp hpj
    have hs := nonBlankPairs_sound texts 0 p hp
    rw [← hs.2.2.1, Nat.sub_zero, hpj]
  · intro m1 m2 hapiB hapiS hcache
    subst hapiB
    subst hapiS
    by_cases htexts : texts = []
    · subst htexts; rfl
    · obtain ⟨st1, hcol, hc1⟩ := collectUncached_empty_cache hash texts 0
        (texts.map (fun _ => [])) [] st hcache
      simp only [get_embeddings_batch, if_neg htexts, hcol, List.nil_append]
      split
      · rfl
      · exact processBatches_all_fail hash (fun _ => Except.error m1)
          (fun _ _ => Except.error m2) m1 m2 (fun _ => rfl) (fun _ _ => rfl)
          (chunksOf B (nonBlankPairs 0 texts)) (texts.map (fun _ => [])) st1 hc1

/-- Witness for C5 (Scenario A): three texts with the second blank, a
functional provider mapping every text to `[1]`, chunk size 2 — the
result has length 3, position 1 is the sentinel and positions 0 and 2
are populated. -/
theorem get_embeddings_batch_spec_witness :
    (get_embeddings_batch id 2 (fun ts => Except.ok (ts.map (fun _ => [1])))
        (fun _ _ => Except.error "x") emptyCacheState ["a", "", "b"]).1.length
      = 3 ∧
    (get_embeddings_batch id 2 (fun ts => Except.ok (ts.map (fun _ => [1])))
        (fun _ _ => Except.error "x") emptyCacheState ["a", "", "b"]).1.getD 1 []
      = [] ∧
    (get_embeddings_batch id 2 (fun ts => Except.ok (ts.map (fun _ => [1])))
        (fun _ _ => Except.error "x") emptyCacheState ["a", "", "b"]).1.getD 0 []
      = [1] ∧
    (get_embeddings_batch id 2 (fun ts => Except.ok (ts.map (fun _ => [1])))
        (fun _ _ => Except.error "x") emptyCacheState ["a", "", "b"]).1.getD 2 []
      = [1] := by
  have h := get_embeddings_batch_spec id 2
    (fun ts => Except.ok (ts.map (fun _ => [1])))
    (fun _ _ => Except.error "x") emptyCacheState ["a", "", "b"] (by decide)
  exact ⟨h.1, h.2.1 1 (by decide) (by decide),
    h.2.2.1 (fun _ => [1]) rfl rfl 0 (by decide) (by decide),
    h.2.2.1 (fun _ => [1]) rfl rfl 2 (by decide) (by decide)⟩

end BlogAutoPilot
